import Mathlib

/-!
Verification development for the RiskFormBuild repository
(dynamic risk-assessment form builder).

The development is a shallow embedding of the repository's core engine:
  * `src/types/form.ts`        — the schema data model,
  * `src/utils/validation.ts`  — conditional visibility and validation,
  * `src/utils/riskCalculation.ts` — the risk scoring engine,
  * `src/utils/storage.ts`     — the persistence / draft store.

JavaScript runtime values that can appear as form answers are modelled by
the inductive type `JSVal`.  JavaScript numbers are modelled as rationals
(`ℚ`); `NaN` is not a stored value here, it only arises transiently from
`Number(...)` coercion, which is therefore modelled as `Option ℚ` with
`none` standing for `NaN`.  Strict equality (`===`) on arrays, File
objects and plain objects is reference equality in JavaScript; the
configuration objects and the form-value objects of this program never
alias, so it is modelled as constantly `false` on those constructors.  Host capabilities that are not
part of the repository (the RegExp engine, `Date` parsing) are parameters
collected in the `Host` structure.
-/

/-- JavaScript runtime values used as form answers / conditional answers. -/
inductive JSVal where
  | str (s : String)
  | num (q : ℚ)
  | bool (b : Bool)
  | arr (xs : List JSVal)
  | file (name : String) (mime : String) (size : ℚ)
  | obj (fields : List (String × JSVal))
  | null
  | undef

namespace JSVal

/-- JavaScript truthiness of a value (no `NaN` stored values, see above). -/
def truthy : JSVal → Bool
  | .str s => s ≠ ""
  | .num q => q ≠ 0
  | .bool b => b
  | .arr _ => true
  | .file _ _ _ => true
  | .obj _ => true
  | .null => false
  | .undef => false

/-- JavaScript strict equality (`===`).  Structural on primitives; arrays,
File objects and plain objects compare by reference, modelled as `false`
because the compared values never alias in this program. -/
def jsEq : JSVal → JSVal → Bool
  | .str a, .str b => a == b
  | .num a, .num b => a == b
  | .bool a, .bool b => a == b
  | .null, .null => true
  | .undef, .undef => true
  | _, _ => false

/-- `Array.isArray`. -/
def isArr : JSVal → Bool
  | .arr _ => true
  | _ => false

end JSVal

/-- Digits of a decimal string to a natural number. -/
def digitsToNat (cs : List Char) : Nat :=
  cs.foldl (fun a c => a * 10 + (c.toNat - 48)) 0

/-- Parse an unsigned decimal literal (`"12"`, `"12.5"`, `".5"`, `"12."`). -/
def parseDecimalCore (cs : List Char) : Option ℚ :=
  let intPart := cs.takeWhile (·.isDigit)
  let rest := cs.dropWhile (·.isDigit)
  match rest with
  | [] => if intPart = [] then none else some (digitsToNat intPart)
  | '.' :: frac =>
      if frac.all (·.isDigit) && !(intPart = [] && frac = []) then
        some ((digitsToNat intPart : ℚ) + (digitsToNat frac : ℚ) / (10 ^ frac.length : ℚ))
      else none
  | _ => none

/-- JavaScript `Number(string)`: trimmed empty string is `0`, decimal
literals parse, anything else is `NaN` (`none`).  Hexadecimal and exponent
forms are out of scope of this model. -/
def jsStringToNumber (s : String) : Option ℚ :=
  let t := s.trim
  if t = "" then some 0
  else
    match t.toList with
    | '-' :: rest => (parseDecimalCore rest).map (fun q => -q)
    | '+' :: rest => parseDecimalCore rest
    | cs => parseDecimalCore cs

/-- JavaScript `Number(v)` coercion; `none` is `NaN`.  Arrays coerce through
their string form; the model covers the empty and the singleton
string/number cases exactly and maps other arrays to `NaN`. -/
def jsToNumber : JSVal → Option ℚ
  | .num q => some q
  | .str s => jsStringToNumber s
  | .bool b => some (if b then 1 else 0)
  | .null => some 0
  | .undef => none
  | .arr [] => some 0
  | .arr [.str s] => jsStringToNumber s
  | .arr [.num q] => some q
  | .arr _ => none
  | .file _ _ _ => none
  | .obj _ => none

/-- Truncated decimal expansion of the fractional part, `k` digits. -/
def fracDigits : ℚ → Nat → List Char
  | _, 0 => []
  | q, k + 1 =>
      let q10 := q * 10
      let d := q10.floor.toNat
      Char.ofNat (48 + d) :: fracDigits (q10 - q10.floor) k

/-- JavaScript number-to-string.  Exact for integers (the only case any
theorem below touches); non-integers are printed with a truncated 10-digit
expansion, approximating the double formatting of the host. -/
def jsNumToString (q : ℚ) : String :=
  if q.den = 1 then toString q.num
  else
    let sign := if q < 0 then "-" else ""
    let a := |q|
    sign ++ toString a.floor ++ "." ++ String.mk (fracDigits (a - a.floor) 10)

mutual

/-- JavaScript `String(v)` coercion. -/
def jsToString : JSVal → String
  | .str s => s
  | .num q => jsNumToString q
  | .bool b => if b then "true" else "false"
  | .arr xs => jsArrToString xs
  | .file _ _ _ => "[object File]"
  | .obj _ => "[object Object]"
  | .null => "null"
  | .undef => "undefined"

/-- `Array.prototype.toString`: comma-join; `null`/`undefined` elements
print as the empty string. -/
def jsArrToString : List JSVal → String
  | [] => ""
  | [x] =>
      match x with
      | .null => ""
      | .undef => ""
      | v => jsToString v
  | x :: y :: rest =>
      (match x with
       | .null => ""
       | .undef => ""
       | v => jsToString v) ++ "," ++ jsArrToString (y :: rest)

end

/-- Boolean list prefix test. -/
def listIsPrefixOf [BEq α] : List α → List α → Bool
  | [], _ => true
  | _ :: _, [] => false
  | a :: as, b :: bs => a == b && listIsPrefixOf as bs

/-- Boolean list infix test. -/
def listIsInfixOf [BEq α] (needle : List α) : List α → Bool
  | [] => listIsPrefixOf needle []
  | b :: bs => listIsPrefixOf needle (b :: bs) || listIsInfixOf needle bs

/-- JavaScript `String.prototype.includes` (substring containment). -/
def strIncludes (hay needle : String) : Bool :=
  listIsInfixOf needle.toList hay.toList

/-- JavaScript `Array.prototype.includes` (SameValueZero; with `NaN`
excluded from stored values this coincides with `===`). -/
def arrIncludes (xs : List JSVal) (v : JSVal) : Bool :=
  xs.any (fun x => JSVal.jsEq x v)

/-!
## Schema data model (`src/types/form.ts`)

The TypeScript `Question` is a discriminated union whose scoring and
validation code reads the type-specific fields through untyped casts
(`question as any`), so the embedding flattens it into one structure with
every field optional, mirroring what the runtime object can carry.
TypeScript's type annotations are erased at runtime and the configuration
arrives as JSON, so `operator` and `ValidationRule.type` are modelled as
strings and `options` entries as `string | {label, value, riskValue?}`.
-/

/-- `ConditionalLogic` from `src/types/form.ts`.  `operator` is optional;
the evaluators default it to `"equals"`. -/
structure ConditionalLogic where
  questionId : String
  answer : JSVal
  operator : Option String := none

/-- Result of a duck-typed custom validator (`boolean | string`). -/
inductive VResult where
  | bool (b : Bool)
  | str (s : String)

/-- `ValidationRule` from `src/types/form.ts`; only `type = "custom"` rules
with a `validate` function are executed by the engine. -/
structure ValidationRule where
  type : String
  message : String
  validate : Option (JSVal → VResult) := none

/-- The question's discriminant (`question.type`). -/
inductive QType where
  | text
  | number
  | select
  | checkbox
  | file
  | date
deriving DecidableEq

/-- Polymorphic option shape: `string | {label, value, riskValue?}`. -/
inductive QOption where
  | s (v : String)
  | o (label : String) (value : String) (riskValue : Option ℚ)

/-- A question, flattening the TypeScript discriminated union (the engine
reads type-specific fields through `as any`). -/
structure Question where
  id : String
  type : QType
  label : String
  required : Bool := false
  riskWeight : Option ℚ := none
  conditional : Option ConditionalLogic := none
  validation : List ValidationRule := []
  minLength : Option ℚ := none
  maxLength : Option ℚ := none
  pattern : Option String := none
  min : Option ℚ := none
  max : Option ℚ := none
  minDate : Option String := none
  maxDate : Option String := none
  accept : Option String := none
  maxSize : Option ℚ := none
  options : Option (List QOption) := none

/-- A form section. -/
structure Section where
  id : String
  title : String
  questions : List Question

/-- The full form configuration. -/
structure FormConfig where
  id : String
  title : String
  sections : List Section
  maxRiskScore : Option ℚ := none

/-- `FormValues`: a JavaScript object mapping question ids to answers,
modelled as an association list (later writes replace earlier keys, see
`objSet`). -/
def FormValues := List (String × JSVal)

/-- Property read `values[key]`: `undefined` when the key is absent. -/
def jsGet (values : FormValues) (key : String) : JSVal :=
  match values.find? (fun p => p.1 == key) with
  | some p => p.2
  | none => JSVal.undef

/-- Property write `obj[key] = v` on a JavaScript object modelled as an
association list: replaces an existing key in place, else appends. -/
def objSet (m : List (String × α)) (key : String) (v : α) : List (String × α) :=
  if m.any (fun p => p.1 == key) then
    m.map (fun p => if p.1 == key then (key, v) else p)
  else m ++ [(key, v)]

/-- Host capabilities used by the validation engine but external to the
repository: the RegExp engine and `Date` string parsing (epoch millis,
`none` = invalid date). -/
structure Host where
  regexTest : String → String → Bool
  parseDate : String → Option ℚ

/-- A concrete host instance used to evaluate the engine on closed inputs
whose control flow does not reach the host calls. -/
def defaultHost : Host :=
  { regexTest := fun _ _ => false, parseDate := fun _ => none }

/-!
## Condition evaluator (`src/utils/validation.ts`, lines 10-51 and 228-258)
-/

/-- The operator switch of `isFieldVisible` (lines 25-50), run after the
empty-value guard.  The `default` branch is fail-open (`true`). -/
def visibleDispatch (answer : JSVal) (op : String) (currentValue : JSVal) : Bool :=
  if op == "equals" then
    match answer with
    | .arr as =>
        match currentValue with
        | .arr cs => as.any (fun a => arrIncludes cs a)
        | _ => arrIncludes as currentValue
    | _ => JSVal.jsEq currentValue answer
  else if op == "includes" then
    match currentValue with
    | .arr cs =>
        match answer with
        | .arr as => as.any (fun a => arrIncludes cs a)
        | _ => arrIncludes cs answer
    | _ => strIncludes (jsToString currentValue) (jsToString answer)
  else if op == "greaterThan" then
    match jsToNumber currentValue, jsToNumber answer with
    | some a, some b => a > b
    | _, _ => false
  else if op == "lessThan" then
    match jsToNumber currentValue, jsToNumber answer with
    | some a, some b => a < b
    | _, _ => false
  else
    true

/-- `isFieldVisible(question, formValues)` (validation.ts lines 10-51). -/
def isFieldVisible (question : Question) (formValues : FormValues) : Bool :=
  match question.conditional with
  | none => true
  | some cond =>
      let currentValue := jsGet formValues cond.questionId
      if JSVal.jsEq currentValue .undef || JSVal.jsEq currentValue .null
          || JSVal.jsEq currentValue (.str "") then
        false
      else
        visibleDispatch cond.answer (cond.operator.getD "equals") currentValue

/-- `evaluateCondition(conditional, currentValue)` (validation.ts lines
228-258).  The parameter is nullable at runtime (`if (!conditional) return
true`), hence the `Option`.  The `default` branch is fail-closed
(`false`), and the `includes` branch differs from `isFieldVisible`: for an
array current value it tests membership of the `answer` value itself
instead of intersecting. -/
def evaluateCondition (conditional : Option ConditionalLogic) (currentValue : JSVal) : Bool :=
  match conditional with
  | none => true
  | some c =>
      let op := c.operator.getD "equals"
      if op == "equals" then
        match c.answer with
        | .arr as =>
            match currentValue with
            | .arr cs => as.any (fun a => arrIncludes cs a)
            | _ => arrIncludes as currentValue
        | _ => JSVal.jsEq currentValue c.answer
      else if op == "includes" then
        match currentValue with
        | .arr cs => arrIncludes cs c.answer
        | _ => strIncludes (jsToString currentValue) (jsToString c.answer)
      else if op == "greaterThan" then
        match jsToNumber currentValue, jsToNumber c.answer with
        | some a, some b => a > b
        | _, _ => false
      else if op == "lessThan" then
        match jsToNumber currentValue, jsToNumber c.answer with
        | some a, some b => a < b
        | _, _ => false
      else
        false

/-- `getVisibleQuestions(questions, formValues)` (validation.ts 218-223). -/
def getVisibleQuestions (questions : List Question) (formValues : FormValues) : List Question :=
  questions.filter (fun question => isFieldVisible question formValues)

/-!
## Validation engine (`src/utils/validation.ts`, lines 56-213)
-/

/-- The emptiness test used by `validateField`
(`value === undefined || value === null || value === ''`). -/
def isEmptyValue (value : JSVal) : Bool :=
  JSVal.jsEq value .undef || JSVal.jsEq value .null || JSVal.jsEq value (.str "")

/-- JavaScript `value.length` as read by the text checks: defined for
strings and arrays, `undefined` (`none`) otherwise — a comparison with
`undefined` is `false`. -/
def jsLength : JSVal → Option ℚ
  | .str s => some s.length
  | .arr xs => some xs.length
  | _ => none

/-- `validateFileUpload(file, fileQuestion)` (validation.ts 166-193). -/
def validateFileUpload (fileName fileMime : String) (fileSize : ℚ)
    (question : Question) : Option String :=
  let typeErr : Option String :=
    match question.accept with
    | some acc =>
        if acc ≠ "" then
          let acceptedTypes := (acc.splitOn ",").map (fun t => t.trim)
          let fileExtension := "." ++ (((fileName.splitOn ".").getLast?.getD "").toLower)
          let isAccepted := acceptedTypes.any (fun t =>
            if t.startsWith "." then fileExtension.toLower == t.toLower
            else strIncludes fileMime t)
          if !isAccepted then
            some ("File type not supported. Accepted types: " ++ acc)
          else none
        else none
    | none => none
  match typeErr with
  | some e => some e
  | none =>
      match question.maxSize with
      | some ms =>
          if ms ≠ 0 && fileSize > ms * 1024 * 1024 then
            some ("File size exceeds " ++ jsNumToString ms ++ "MB limit")
          else none
      | none => none

/-- The `for (const rule of question.validation)` loop of `validateField`
(validation.ts 149-158): run `type === 'custom'` rules in order, fail on
the first whose result is not literally `true`. -/
def runCustomRules (rules : List ValidationRule) (value : JSVal) : Option String :=
  match rules with
  | [] => none
  | rule :: rest =>
      if rule.type == "custom" then
        match rule.validate with
        | some f =>
            match f value with
            | .bool true => runCustomRules rest value
            | .bool false => some rule.message
            | .str s => some s
        | none => runCustomRules rest value
      else runCustomRules rest value

/-- The type-specific `switch (question.type)` of `validateField`
(validation.ts 76-146), evaluated on non-empty values only. -/
def typeSpecificError (host : Host) (question : Question) (value : JSVal) : Option String :=
  match question.type with
  | .text =>
      let lenLt := fun (m : ℚ) =>
        match jsLength value with
        | some l => decide (l < m)
        | none => false
      let lenGt := fun (m : ℚ) =>
        match jsLength value with
        | some l => decide (l > m)
        | none => false
      match question.minLength with
      | some m =>
          if m ≠ 0 && lenLt m then
            some ("Minimum length is " ++ jsNumToString m ++ " characters")
          else
            match question.maxLength with
            | some M =>
                if M ≠ 0 && lenGt M then
                  some ("Maximum length is " ++ jsNumToString M ++ " characters")
                else
                  match question.pattern with
                  | some p =>
                      if p ≠ "" && !host.regexTest p (jsToString value) then
                        some ("Invalid format for " ++ question.label)
                      else none
                  | none => none
            | none =>
                match question.pattern with
                | some p =>
                    if p ≠ "" && !host.regexTest p (jsToString value) then
                      some ("Invalid format for " ++ question.label)
                    else none
                | none => none
      | none =>
          match question.maxLength with
          | some M =>
              if M ≠ 0 && lenGt M then
                some ("Maximum length is " ++ jsNumToString M ++ " characters")
              else
                match question.pattern with
                | some p =>
                    if p ≠ "" && !host.regexTest p (jsToString value) then
                      some ("Invalid format for " ++ question.label)
                    else none
                | none => none
          | none =>
              match question.pattern with
              | some p =>
                  if p ≠ "" && !host.regexTest p (jsToString value) then
                    some ("Invalid format for " ++ question.label)
                  else none
              | none => none
  | .number =>
      match jsToNumber value with
      | none => some "Please enter a valid number"
      | some numValue =>
          match question.min with
          | some m =>
              if numValue < m then some ("Minimum value is " ++ jsNumToString m)
              else
                match question.max with
                | some M =>
                    if numValue > M then some ("Maximum value is " ++ jsNumToString M)
                    else none
                | none => none
          | none =>
              match question.max with
              | some M =>
                  if numValue > M then some ("Maximum value is " ++ jsNumToString M)
                  else none
              | none => none
  | .date =>
      let dateOf : JSVal → Option ℚ := fun v =>
        match v with
        | .str s => host.parseDate s
        | .num q => some q
        | _ => none
      match dateOf value with
      | none => some "Please enter a valid date"
      | some d =>
          let before := fun (md : String) =>
            match host.parseDate md with
            | some m => decide (d < m)
            | none => false
          let after := fun (md : String) =>
            match host.parseDate md with
            | some m => decide (d > m)
            | none => false
          match question.minDate with
          | some md =>
              if md ≠ "" && before md then some ("Date cannot be before " ++ md)
              else
                match question.maxDate with
                | some Md =>
                    if Md ≠ "" && after Md then some ("Date cannot be after " ++ Md)
                    else none
                | none => none
          | none =>
              match question.maxDate with
              | some Md =>
                  if Md ≠ "" && after Md then some ("Date cannot be after " ++ Md)
                  else none
              | none => none
  | .file =>
      match value with
      | .arr files =>
          files.findSome? (fun f =>
            match f with
            | .file n m sz =>
                match validateFileUpload n m sz question with
                | some e => if e ≠ "" then some e else none
                | none => none
            | _ => none)
      | .file n m sz => validateFileUpload n m sz question
      | _ => none
  | .select =>
      match value with
      | .arr [] => if question.required then
            some ("Please select at least one option for " ++ question.label)
          else none
      | _ => none
  | .checkbox =>
      match value with
      | .arr [] => if question.required then
            some ("Please select at least one option for " ++ question.label)
          else none
      | _ => none

/-- `validateField(question, value, isVisible)` (validation.ts 56-161). -/
def validateField (host : Host) (question : Question) (value : JSVal)
    (isVisible : Bool) : Option String :=
  if !isVisible then none
  else if question.required && isEmptyValue value then
    some (question.label ++ " is required")
  else if !question.required && isEmptyValue value then none
  else
    match typeSpecificError host question value with
    | some e => some e
    | none => runCustomRules question.validation value

/-- The body of the `questions.forEach` loop of `validateForm`
(validation.ts 204-210): compute visibility, validate, record a truthy
(non-empty) error string under the question id. -/
def validateFormStep (host : Host) (formValues : FormValues)
    (errors : List (String × String)) (question : Question) :
    List (String × String) :=
  let isVisible := isFieldVisible question formValues
  match validateField host question (jsGet formValues question.id) isVisible with
  | some e => if e ≠ "" then objSet errors question.id e else errors
  | none => errors

/-- `validateForm(questions, formValues)` (validation.ts 198-213): the
error object keyed by question id. -/
def validateForm (host : Host) (questions : List Question)
    (formValues : FormValues) : List (String × String) :=
  questions.foldl (validateFormStep host formValues) []

/-!
## Risk scoring engine (`src/utils/riskCalculation.ts`)
-/

/-- Risk level. -/
inductive RiskLevel where
  | Low
  | Medium
  | High
  | Critical
deriving DecidableEq

/-- Per-section breakdown entry. -/
structure SectionScore where
  score : ℚ
  maxScore : ℚ
  percentage : ℚ
deriving DecidableEq

/-- `RiskScore` result.  `totalScore` and `percentage` are
`Math.round`ed integers; `breakdown` is the object keyed by section id. -/
structure RiskScore where
  totalScore : ℤ
  maxScore : ℚ
  percentage : ℤ
  level : RiskLevel
  breakdown : List (String × SectionScore)

/-- `Math.round` (round half toward positive infinity). -/
def jsRound (q : ℚ) : ℤ := ⌊q + 1 / 2⌋

/-- The option lookup and fallback shared by both branches of
`calculateQuestionRiskScore` (riskCalculation.ts lines 28-31 and 36-39):
find the option whose value strictly equals `val`, then
`option?.riskValue || weight` — note `||`, so a `riskValue` of `0` is
falsy and falls back to `weight`. -/
def findOptionScore (opts : List QOption) (weight : ℚ) (val : JSVal) : ℚ :=
  match opts.find? (fun opt =>
    match opt with
    | .s sv => JSVal.jsEq (.str sv) val
    | .o _ ov _ => JSVal.jsEq (.str ov) val) with
  | some (.o _ _ (some r)) => if r = 0 then weight else r
  | _ => weight

/-- The clause `Array.isArray(answer) && answer.length === 0` of the
scoring guard. -/
def isEmptyArray : JSVal → Bool
  | .arr xs => xs.isEmpty
  | _ => false

/-- `calculateQuestionRiskScore(question, answer)` (riskCalculation.ts
10-46).  The guard `!answer || answer === '' || (Array.isArray(answer) &&
answer.length === 0)` maps every falsy answer and the empty array to 0. -/
def calculateQuestionRiskScore (question : Question) (answer : JSVal) : ℚ :=
  if !answer.truthy || JSVal.jsEq answer (.str "")
      || isEmptyArray answer then 0
  else
    let weight := question.riskWeight.getD 0
    if (question.type = .select ∨ question.type = .checkbox)
        ∧ question.options.isSome then
      let opts := question.options.getD []
      if question.type = .checkbox then
        match answer with
        | .arr vals =>
            let riskValues := vals.map (findOptionScore opts weight)
            if riskValues.length > 0 then
              riskValues.sum / (riskValues.length : ℚ)
            else weight
        | _ => findOptionScore opts weight answer
      else
        findOptionScore opts weight answer
    else
      weight

/-- `calculateRiskScore(formConfig, formValues)` (riskCalculation.ts
51-104).  Section and total sums accumulate per question; the breakdown
keeps the raw (unrounded, unnormalized) section values; `maxRiskScore` is
read with `|| 100`, so a configured `0` also falls back to `100`. -/
def calculateRiskScore (formConfig : FormConfig) (formValues : FormValues) : RiskScore :=
  let step := fun (acc : List (String × SectionScore) × ℚ × ℚ) (sec : Section) =>
    let sums := sec.questions.foldl (fun (p : ℚ × ℚ) question =>
      let answer := jsGet formValues question.id
      (p.1 + calculateQuestionRiskScore question answer,
       p.2 + question.riskWeight.getD 0)) (0, 0)
    let sectionScore := sums.1
    let sectionMaxScore := sums.2
    (objSet acc.1 sec.id
      { score := sectionScore
        maxScore := sectionMaxScore
        percentage :=
          if sectionMaxScore > 0 then sectionScore / sectionMaxScore * 100 else 0 },
     acc.2.1 + sectionScore, acc.2.2 + sectionMaxScore)
  let res := formConfig.sections.foldl step ([], 0, 0)
  let breakdown := res.1
  let totalScore := res.2.1
  let maxScore := res.2.2
  let maxScoreConfig :=
    match formConfig.maxRiskScore with
    | some m => if m = 0 then 100 else m
    | none => 100
  let percentage := if maxScore > 0 then totalScore / maxScore * 100 else 0
  let normalizedScore := percentage / 100 * maxScoreConfig
  let level : RiskLevel :=
    if normalizedScore ≥ 75 then .Critical
    else if normalizedScore ≥ 50 then .High
    else if normalizedScore ≥ 25 then .Medium
    else .Low
  { totalScore := jsRound normalizedScore
    maxScore := maxScoreConfig
    percentage := jsRound percentage
    level := level
    breakdown := breakdown }

/-!
## Persistence store (`src/utils/storage.ts`)

The browser `localStorage` is modelled as an association list from keys to
stored values.  A stored JSON *text* is represented by its `JSON.parse`
image — a `StoredVal` — which is sound because the store's text is only
ever read back through `JSON.parse`.  `JSON.stringify` is **not** the
identity on what this program writes: form values can hold genuine `File`
objects (the file field stores `File[]`, and `validateField` checks
`value instanceof File`), and `JSON.stringify` serializes a `File` to the
empty object `{}` (its name/type/size are prototype getters, not
enumerable own properties); `undefined` members are dropped and
`undefined` array slots become `null`.  The functions `jsonMember` /
`serializeValues` / `serializeState` below model this
`JSON.parse(JSON.stringify(…))` image, and the state-writing operations
apply it at the write boundary.  Draft-index entries are records of plain
strings, on which the round-trip is the identity, so index writes store
the list unchanged.  A `setItem` failure (quota) is modelled by the
`quotaExceeded` flag; `getItem`/`removeItem` do not fail.
-/

/-- A draft-index metadata entry (`{id, name, createdAt, updatedAt}`). -/
structure DraftEntry where
  id : String
  name : String
  createdAt : String
  updatedAt : String
deriving DecidableEq

/-- `AutoSaveState` from `src/types/form.ts`. -/
structure AutoSaveState where
  lastSavedAt : String
  isDraft : Bool
  draftId : String

/-- `PersistedFormState` from `src/types/form.ts`. -/
structure PersistedFormState where
  formId : String
  values : FormValues
  autoSave : AutoSaveState
  timestamp : String

mutual

/-- The `JSON.parse(JSON.stringify(v))` image of a value in *member*
position: primitives survive, a `File` collapses to the empty object
`{}`, nested objects drop their `undefined` members.  (`.undef` itself is
only reached inside arrays, where `undefined` serializes to `null`;
`undefined`-valued object members are dropped by `jsonMemberFields`
before this function is called.) -/
def jsonMember : JSVal → JSVal
  | .str s => .str s
  | .num q => .num q
  | .bool b => .bool b
  | .null => .null
  | .undef => .null
  | .arr xs => .arr (jsonMemberList xs)
  | .file _ _ _ => .obj []
  | .obj fs => .obj (jsonMemberFields fs)

/-- JSON image of an array's elements. -/
def jsonMemberList : List JSVal → List JSVal
  | [] => []
  | x :: xs => jsonMember x :: jsonMemberList xs

/-- JSON image of an object's members: `undefined`-valued members are
dropped, the rest serialize in member position. -/
def jsonMemberFields : List (String × JSVal) → List (String × JSVal)
  | [] => []
  | (k, v) :: rest =>
      match v with
      | .undef => jsonMemberFields rest
      | v => (k, jsonMember v) :: jsonMemberFields rest

end

/-- The `JSON.parse(JSON.stringify(values))` image of a form-value map
(a JavaScript object). -/
def serializeValues (values : FormValues) : FormValues :=
  jsonMemberFields values

/-- The `JSON.parse(JSON.stringify(state))` image of a persisted state:
every field except `values` is a plain string or boolean and survives
unchanged; `values` goes through `serializeValues`. -/
def serializeState (s : PersistedFormState) : PersistedFormState :=
  { s with values := serializeValues s.values }

/-- A parsed stored value: either a persisted form state or a draft
index.  (A shape mismatch can only arise from colliding keys, which no
operation of this store produces.) -/
inductive StoredVal where
  | state (s : PersistedFormState)
  | index (l : List DraftEntry)

/-- The modelled `localStorage`. -/
structure Storage where
  data : List (String × StoredVal) := []
  quotaExceeded : Bool := false

/-- The namespace constant `STORAGE_PREFIX = 'risk-form:'` (storage.ts 7). -/
def storageNS : String := "risk-form:"

/-- `getStorageKey(formId)` (storage.ts 12-14). -/
def getStorageKey (formId : String) : String := storageNS ++ formId

/-- `getDraftsListKey(formId)` (storage.ts 19-21). -/
def getDraftsListKey (formId : String) : String := storageNS ++ "drafts:" ++ formId

/-- The draft data key `` `${STORAGE_PREFIX}draft:${formId}:${draftId}` ``. -/
def getDraftKey (formId draftId : String) : String :=
  storageNS ++ "draft:" ++ formId ++ ":" ++ draftId

/-- `localStorage.setItem`; `none` models a thrown quota error. -/
def setItem (st : Storage) (key : String) (v : StoredVal) : Option Storage :=
  if st.quotaExceeded then none
  else some { st with data := objSet st.data key v }

/-- `localStorage.getItem` (with the JSON parse folded in, see above). -/
def getItem (st : Storage) (key : String) : Option StoredVal :=
  match st.data.find? (fun p => p.1 == key) with
  | some p => some p.2
  | none => none

/-- `localStorage.removeItem`. -/
def removeItem (st : Storage) (key : String) : Storage :=
  { st with data := st.data.filter (fun p => p.1 ≠ key) }

/-- `saveFormState(formId, values, draftId?)` (storage.ts 26-52).  `now`
is the ISO timestamp the host clock returns during the call.  Note
`isDraft: !!draftId` — falsy for an absent and for an *empty* draft id —
and `draftId: draftId || ''`.  The store receives
`JSON.stringify(state)`, modelled by its parse image
`serializeState state`; the function *returns* the in-memory `state`
object, not its serialized image.  On write failure the original error
is swallowed and the wrapped message is thrown. -/
def saveFormState (st : Storage) (formId : String) (values : FormValues)
    (draftId : Option String) (now : String) :
    Except String (Storage × PersistedFormState) :=
  let autoSave : AutoSaveState :=
    { lastSavedAt := now
      isDraft := !((draftId.getD "") == "")
      draftId := draftId.getD "" }
  let state : PersistedFormState :=
    { formId := formId, values := values, autoSave := autoSave, timestamp := now }
  match setItem st (getStorageKey formId) (.state (serializeState state)) with
  | some st' => .ok (st', state)
  | none => .error "Failed to save form state"

/-- `loadFormState(formId)` (storage.ts 57-66): soft failure to `null`. -/
def loadFormState (st : Storage) (formId : String) : Option PersistedFormState :=
  match getItem st (getStorageKey formId) with
  | some (.state s) => some s
  | _ => none

/-- `getDraftsList(formId)` (storage.ts 143-154): `[]` on a missing or
unreadable index. -/
def getDraftsList (st : Storage) (formId : String) : List DraftEntry :=
  match getItem st (getDraftsListKey formId) with
  | some (.index l) => l
  | _ => []

/-- `saveDraft(formId, draftName, values, draftId?)` (storage.ts 83-124).
`nowMs` models `Date.now()` and `now` the ISO timestamp.  The id is
generated when `draftId` is falsy (absent *or empty*).  The index update
always `push`es a fresh metadata entry — it never updates an existing
entry in place. -/
def saveDraft (st : Storage) (formId draftName : String) (values : FormValues)
    (draftId : Option String) (nowMs : Nat) (now : String) :
    Except String (Storage × String) :=
  let newDraftId :=
    if (draftId.getD "") == "" then "draft-" ++ toString nowMs else draftId.getD ""
  let draftKey := getDraftKey formId newDraftId
  let autoSave : AutoSaveState :=
    { lastSavedAt := now, isDraft := true, draftId := newDraftId }
  let state : PersistedFormState :=
    { formId := formId, values := values, autoSave := autoSave, timestamp := now }
  match setItem st draftKey (.state (serializeState state)) with
  | none => .error "Failed to save draft"
  | some st1 =>
      let listKey := getDraftsListKey formId
      let draftsList := getDraftsList st1 formId
      let newList := draftsList ++
        [{ id := newDraftId, name := draftName, createdAt := now, updatedAt := now }]
      match setItem st1 listKey (.index newList) with
      | none => .error "Failed to save draft"
      | some st2 => .ok (st2, newDraftId)

/-- `loadDraft(formId, draftId)` (storage.ts 129-138). -/
def loadDraft (st : Storage) (formId draftId : String) : Option PersistedFormState :=
  match getItem st (getDraftKey formId draftId) with
  | some (.state s) => some s
  | _ => none

/-- `deleteDraft(formId, draftId)` (storage.ts 159-173): removes the data
key, then rewrites the index filtered by `d.id !== draftId`; errors are
swallowed (a failing index write leaves the index untouched). -/
def deleteDraft (st : Storage) (formId draftId : String) : Storage :=
  let st1 := removeItem st (getDraftKey formId draftId)
  let filteredList := (getDraftsList st1 formId).filter (fun d => d.id ≠ draftId)
  match setItem st1 (getDraftsListKey formId) (.index filteredList) with
  | some st2 => st2
  | none => st1

/-!
## Helper lemmas
-/

/-- Looking up the key just written by `objSet` yields the new value. -/
theorem objSet_find?_self (m : List (String × α)) (k : String) (v : α) :
    (objSet m k v).find? (fun p => p.1 == k) = some (k, v) := by
  unfold objSet
  by_cases h : m.any (fun p => p.1 == k)
  · simp only [h, if_true, List.find?_map]
    have hcongr : ((fun p => p.1 == k) ∘ fun (p : String × α) =>
        if p.1 == k then (k, v) else p) = fun p => p.1 == k := by
      funext x
      by_cases hx : (x.1 == k) = true
      · simp [Function.comp, hx]
      · simp [Function.comp, hx]
    rw [hcongr]
    obtain ⟨x, hx_mem, hx⟩ := List.any_eq_true.mp h
    cases hfind : m.find? (fun p => p.1 == k) with
    | none =>
        rw [List.find?_eq_none] at hfind
        exact absurd hx (hfind x hx_mem)
    | some y =>
        have hy := List.find?_some hfind
        show some (if (y.1 == k) = true then (k, v) else y) = some (k, v)
        rw [if_pos hy]
  · simp only [h, if_false, List.find?_append]
    have hnone : m.find? (fun p => p.1 == k) = none := by
      rw [List.find?_eq_none]
      intro x hx hpx
      exact h (List.any_eq_true.mpr ⟨x, hx, hpx⟩)
    simp [hnone]

/-- `objSet` at one key does not change lookups of a different key. -/
theorem objSet_find?_ne (m : List (String × α)) (k k' : String) (v : α)
    (h : k' ≠ k) :
    (objSet m k v).find? (fun p => p.1 == k') = m.find? (fun p => p.1 == k') := by
  unfold objSet
  by_cases hany : m.any (fun p => p.1 == k)
  · simp only [hany, if_true, List.find?_map]
    have hkk : (k == k') = false := beq_eq_false_iff_ne.mpr (Ne.symm h)
    have hcongr : ((fun p => p.1 == k') ∘ fun (p : String × α) =>
        if p.1 == k then (k, v) else p) = fun p => p.1 == k' := by
      funext x
      by_cases hx : (x.1 == k) = true
      · have hx' : x.1 = k := eq_of_beq hx
        simp [Function.comp, hx, hx', hkk]
      · simp [Function.comp, hx]
    rw [hcongr]
    cases hfind : m.find? (fun p => p.1 == k') with
    | none => simp
    | some y =>
        have hy := List.find?_some hfind
        have hy' : y.1 = k' := eq_of_beq hy
        have hky : (y.1 == k) = false := beq_eq_false_iff_ne.mpr (hy' ▸ h)
        show some (if (y.1 == k) = true then (k, v) else y) = some y
        rw [hky]
        simp
  · simp only [hany, if_false, List.find?_append]
    have hsingle : ([(k, v)].find? (fun p => p.1 == k')) = none := by
      have hkk : (k == k') = false := beq_eq_false_iff_ne.mpr (Ne.symm h)
      simp [hkk]
    simp [hsingle]

/-- Removing one key from the store does not change lookups of another. -/
theorem filter_find?_ne (m : List (String × α)) (k k' : String) (h : k' ≠ k) :
    (m.filter (fun p => p.1 ≠ k)).find? (fun p => p.1 == k') =
      m.find? (fun p => p.1 == k') := by
  rw [List.find?_filter]
  congr 1
  funext x
  by_cases hx : (x.1 == k') = true
  · have hx' : x.1 = k' := eq_of_beq hx
    have hne : x.1 ≠ k := hx' ▸ h
    simp [hx, hne]
  · simp [hx]

/-!
## Claim C1 — the concrete select scenario and the riskValue-0 fallback
-/

/-- The select question of the concrete scenario: options
`{yes, riskValue: 0}` / `{no, riskValue: 10}`, `riskWeight: 10`. -/
def c1Question : Question :=
  { id := "q1", type := .select, label := "Question 1", riskWeight := some 10,
    options := some [.o "Yes" "yes" (some 0), .o "No" "no" (some 10)] }

/-- The concrete scenario's config: one section, one select question,
`maxRiskScore: 100`. -/
def c1Config : FormConfig :=
  { id := "test-form", title := "Test Form", maxRiskScore := some 100,
    sections := [{ id := "section1", title := "Section 1", questions := [c1Question] }] }

/-- The second question of the test suite's `mockConfig`
(`riskCalculation.test.ts`): a number question with `riskWeight: 5`. -/
def c1NumberQuestion : Question :=
  { id := "q2", type := .number, label := "Question 2", riskWeight := some 5 }

/-- The `mockConfig` of the repository's own test suite. -/
def c1MockConfig : FormConfig :=
  { id := "test-form", title := "Test Form", maxRiskScore := some 100,
    sections := [
      { id := "section1", title := "Section 1",
        questions := [c1Question, c1NumberQuestion] }] }

/-- C1: the claim (and the spec's concrete scenario) says answering `yes`
(matched option `riskValue: 0`) yields `totalScore = 0`, `level = 'Low'`;
the code instead evaluates `option?.riskValue || weight`, whose `||`
treats the `riskValue` `0` as falsy and falls back to `riskWeight = 10`,
yielding `totalScore = 100`, `level = 'Critical'`.  The `no` and
no-answer branches of the claim agree with the code.  On the test suite's
own `mockConfig` the code yields `level = 'High'` for `{q1: 'yes'}` where
the test `'should calculate correct risk level'` expects `'Low'`: the
code contradicts its own test (`||` where nullish `??` was intended), so
the claim is right and the code has the bug. -/
theorem c1_riskValue_zero_code_bug :
    (calculateRiskScore c1Config [("q1", JSVal.str "yes")]).totalScore = 100 ∧
    (calculateRiskScore c1Config [("q1", JSVal.str "yes")]).level = RiskLevel.Critical ∧
    (calculateRiskScore c1Config [("q1", JSVal.str "no")]).totalScore = 100 ∧
    (calculateRiskScore c1Config [("q1", JSVal.str "no")]).level = RiskLevel.Critical ∧
    (calculateRiskScore c1Config []).totalScore = 0 ∧
    (calculateRiskScore c1Config []).level = RiskLevel.Low ∧
    (calculateRiskScore c1MockConfig [("q1", JSVal.str "yes")]).level = RiskLevel.High := by
  refine ⟨?_, ?_, ?_, ?_, ?_, ?_, ?_⟩ <;>
    simp +decide only [calculateRiskScore, calculateQuestionRiskScore, findOptionScore,
      jsGet, objSet, c1Config, c1Question, c1NumberQuestion, c1MockConfig, JSVal.truthy,
      JSVal.jsEq, isEmptyArray, jsRound, List.find?, List.foldl_cons, List.foldl_nil, List.map_cons,
      List.map_nil, List.any_cons, List.any_nil, Option.getD_some, Option.isSome_some,
      String.reduceBEq, String.reduceEq] <;>
    norm_num

/-!
## Claim C10 — no clamping of the risk score
-/

/-- A select question carrying an option with `riskValue: 20`, strictly
above its `riskWeight: 5`. -/
def c10Question : Question :=
  { id := "q1", type := .select, label := "Q",
    riskWeight := some 5, options := some [.o "A" "a" (some 20)] }

/-- A config holding only `c10Question`; `maxRiskScore` absent
(defaults to 100). -/
def c10Config : FormConfig :=
  { id := "f", title := "T",
    sections := [{ id := "s1", title := "S", questions := [c10Question] }] }

/-- C10: `calculateRiskScore` performs no clamping: with the option of
`riskValue 20 > riskWeight 5` selected, the reported `totalScore` (400)
strictly exceeds the reported `maxScore` (100), the reported `percentage`
(400) exceeds 100, and the section-breakdown percentage (400) also
exceeds 100. -/
theorem c10_no_clamping :
    ((calculateRiskScore c10Config [("q1", JSVal.str "a")]).maxScore <
      ((calculateRiskScore c10Config [("q1", JSVal.str "a")]).totalScore : ℚ)) ∧
    (calculateRiskScore c10Config [("q1", JSVal.str "a")]).percentage > 100 ∧
    ((calculateRiskScore c10Config [("q1", JSVal.str "a")]).breakdown.find?
      (fun p => p.1 == "s1")).map (fun p => p.2.percentage) = some 400 ∧
    (400 : ℚ) > 100 := by
  refine ⟨?_, ?_, ?_, ?_⟩ <;>
    simp +decide only [calculateRiskScore, calculateQuestionRiskScore, findOptionScore,
      jsGet, objSet, c10Config, c10Question, JSVal.truthy, JSVal.jsEq, isEmptyArray, jsRound, List.find?,
      List.foldl_cons, List.foldl_nil, List.map_cons, List.map_nil, List.any_cons,
      List.any_nil, Option.getD_some, Option.isSome_some, Option.map_some,
      String.reduceBEq, String.reduceEq] <;>
    norm_num

/-!
## Claim C2 — binary scoring for answered questions
-/

/-- Whether an option carries a `riskValue`. -/
def optionHasRiskValue : QOption → Bool
  | .o _ _ (some _) => true
  | _ => false

/-- The claim's notion of "a select/checkbox question with
riskValue-carrying options". -/
def hasRiskValueOptions (q : Question) : Bool :=
  decide (q.type = .select ∨ q.type = .checkbox) &&
    (match q.options with
     | some opts => opts.any optionHasRiskValue
     | none => false)

/-- When no option carries a `riskValue`, the option lookup always falls
back to the weight. -/
theorem findOptionScore_eq_weight (opts : List QOption) (w : ℚ) (v : JSVal)
    (h : opts.any optionHasRiskValue = false) :
    findOptionScore opts w v = w := by
  unfold findOptionScore
  cases hfind : opts.find? (fun opt =>
    match opt with
    | .s sv => JSVal.jsEq (.str sv) v
    | .o _ ov _ => JSVal.jsEq (.str ov) v) with
  | none => simp only [hfind]
  | some o =>
      cases o with
      | s sv => simp only [hfind]
      | o lbl ov rv =>
          cases rv with
          | none => simp only [hfind]
          | some r =>
              have hmem := List.mem_of_find?_eq_some hfind
              have := List.any_eq_false.mp h _ hmem
              simp [optionHasRiskValue] at this

/-- Sum of a constant list. -/
theorem sum_map_const (w : ℚ) (l : List α) :
    (l.map (fun _ => w)).sum = l.length * w := by
  induction l with
  | nil => simp
  | cons x xs ih =>
      simp only [List.map_cons, List.sum_cons, ih, List.length_cons]
      push_cast
      ring

/-- A truthy value is not strictly equal to the empty string. -/
theorem jsEq_str_empty_of_truthy (a : JSVal) (h : a.truthy = true) :
    JSVal.jsEq a (.str "") = false := by
  cases a <;> simp_all [JSVal.truthy, JSVal.jsEq]

/-- The empty-array clause of the scoring guard is false for any value
other than the empty array. -/
theorem arr_guard_eq_false (a : JSVal) (hne : a ≠ .arr []) :
    isEmptyArray a = false := by
  cases a with
  | arr xs =>
      have hx : xs ≠ [] := fun h0 => hne (by rw [h0])
      simpa [isEmptyArray] using hx
  | str s => rfl
  | num q => rfl
  | bool b => rfl
  | file n m sz => rfl
  | obj fs => rfl
  | null => rfl
  | undef => rfl

/-- C2 (amended): a question with an `undefined`/`null`/`''` answer scores
0 (in the code every *falsy* answer, e.g. the number `0` or `false`, also
scores 0 — that is the correction); and a question that is not a
select/checkbox with riskValue-carrying options scores exactly
`riskWeight` (default 0) on every *truthy*, non-empty-array answer. -/
theorem c2_binary_scoring (q : Question) (a : JSVal) :
    ((a = .undef ∨ a = .null ∨ a = .str "") → calculateQuestionRiskScore q a = 0) ∧
    (a.truthy = true → a ≠ .arr [] → hasRiskValueOptions q = false →
      calculateQuestionRiskScore q a = q.riskWeight.getD 0) := by
  constructor
  · rintro (rfl | rfl | rfl) <;>
      simp [calculateQuestionRiskScore, JSVal.truthy, JSVal.jsEq, isEmptyArray]
  · intro ht hne hnorv
    have hguard2 := jsEq_str_empty_of_truthy a ht
    unfold calculateQuestionRiskScore
    rw [ht, hguard2, arr_guard_eq_false a hne]
    simp only [Bool.not_true, Bool.or_false, Bool.false_or, Bool.or_self,
      Bool.false_eq_true, if_false]
    by_cases hc : (q.type = .select ∨ q.type = .checkbox) ∧ q.options.isSome = true
    · rw [if_pos hc]
      obtain ⟨htype, hopts⟩ := hc
      cases hop : q.options with
      | none => rw [hop] at hopts; simp at hopts
      | some opts =>
          have hany : opts.any optionHasRiskValue = false := by
            unfold hasRiskValueOptions at hnorv
            rw [hop] at hnorv
            simpa [htype] using hnorv
          have hfw : ∀ v, findOptionScore opts (q.riskWeight.getD 0) v
              = q.riskWeight.getD 0 :=
            fun v => findOptionScore_eq_weight _ _ _ hany
          simp only [Option.getD_some]
          by_cases hcb : q.type = .checkbox
          · rw [if_pos hcb]
            cases a with
            | arr vals =>
                have hv : vals ≠ [] := fun h0 => hne (by rw [h0])
                have hmap : vals.map (findOptionScore opts (q.riskWeight.getD 0))
                    = vals.map (fun _ => q.riskWeight.getD 0) :=
                  List.map_congr_left (fun v _ => hfw v)
                have hlen : 0 < vals.length := List.length_pos.mpr hv
                simp only [hmap, sum_map_const, List.length_map, hlen, if_pos]
                have hQ : (vals.length : ℚ) ≠ 0 := by
                  exact_mod_cast Nat.pos_iff_ne_zero.mp hlen
                field_simp
            | str s => exact hfw _
            | num n => exact hfw _
            | bool b => exact hfw _
            | file n m sz => exact hfw _
            | obj fs => exact hfw _
            | null => exact hfw _
            | undef => exact hfw _
          · rw [if_neg hcb]
            exact hfw a
    · rw [if_neg hc]

/-- A number question with `riskWeight: 5`. -/
def c2NumberQuestion : Question :=
  { id := "n", type := .number, label := "N", riskWeight := some 5 }

/-- C2 (counterexample): the number `0` is a present, non-empty answer
(it is none of `undefined`/`null`/`''`), yet the code's truthiness guard
scores it 0 instead of the claimed full `riskWeight = 5`. -/
theorem c2_counterexample :
    calculateQuestionRiskScore c2NumberQuestion (.num 0) = 0 ∧
    c2NumberQuestion.riskWeight.getD 0 = 5 ∧ (0 : ℚ) ≠ 5 := by
  refine ⟨?_, rfl, by norm_num⟩
  norm_num [calculateQuestionRiskScore, JSVal.truthy, JSVal.jsEq, isEmptyArray,
    c2NumberQuestion]

/-- Witness for `c2_binary_scoring` at concrete inputs. -/
theorem c2_binary_scoring_witness :
    calculateQuestionRiskScore c2NumberQuestion JSVal.null = 0 ∧
    calculateQuestionRiskScore c2NumberQuestion (JSVal.str "x")
      = c2NumberQuestion.riskWeight.getD 0 :=
  ⟨(c2_binary_scoring c2NumberQuestion JSVal.null).1 (Or.inr (Or.inl rfl)),
   (c2_binary_scoring c2NumberQuestion (JSVal.str "x")).2 (by decide)
     (fun h => JSVal.noConfusion h) (by decide)⟩

/-!
## Claim C3 — checkbox scoring
-/

/-- A checkbox question with `riskWeight: 7` and options carrying
`riskValue: 0` and `riskValue: 4`. -/
def c3CheckboxQuestion : Question :=
  { id := "c", type := .checkbox, label := "C", riskWeight := some 7,
    options := some [.o "A" "a" (some 0), .o "B" "b" (some 4)] }

/-- C3 (counterexample): the claim says an empty answer array scores
`riskWeight` (here 7), but the top guard of the code returns 0 for the
empty array; and the claim says selecting the option with `riskValue: 0`
scores its mean 0, but `riskValue || riskWeight` treats 0 as falsy and
scores `riskWeight = 7`. -/
theorem c3_counterexample :
    calculateQuestionRiskScore c3CheckboxQuestion (.arr []) = 0 ∧
    (0 : ℚ) ≠ 7 ∧
    calculateQuestionRiskScore c3CheckboxQuestion (.arr [.str "a"]) = 7 ∧
    (7 : ℚ) ≠ 0 := by
  refine ⟨?_, by norm_num, ?_, by norm_num⟩ <;>
  · simp +decide only [calculateQuestionRiskScore, findOptionScore, JSVal.truthy,
      JSVal.jsEq, isEmptyArray, c3CheckboxQuestion, List.find?, List.map_cons,
      List.map_nil, Option.getD_some, Option.isSome_some, String.reduceBEq,
      String.reduceEq]
    try norm_num

/-- Per-selected-value contribution in the amended C3 claim: the matched
option's `riskValue` when present and non-zero; the question's
`riskWeight` when the option lacks a `riskValue`, carries a zero one, or
no option matches. -/
def c3OptionContribution (q : Question) (v : JSVal) : ℚ :=
  let w := q.riskWeight.getD 0
  match (q.options.getD []).find? (fun opt =>
    match opt with
    | .s sv => JSVal.jsEq (.str sv) v
    | .o _ ov _ => JSVal.jsEq (.str ov) v) with
  | some (.o _ _ (some r)) => if r = 0 then w else r
  | _ => w

/-- C3 (amended): for a checkbox question with an options list and an
array answer, an *empty* array scores 0 (not `riskWeight`: the top guard
precedes the dead `riskValues.length > 0` fallback), and a non-empty
array scores the arithmetic mean of the per-value contributions of
`c3OptionContribution` (riskValue when present and non-zero, else
`riskWeight`). -/
theorem c3_checkbox_mean (q : Question) (vals : List JSVal)
    (h1 : q.type = .checkbox) (h2 : q.options.isSome = true) :
    (vals = [] → calculateQuestionRiskScore q (.arr vals) = 0) ∧
    (vals ≠ [] → calculateQuestionRiskScore q (.arr vals)
        = (vals.map (c3OptionContribution q)).sum / (vals.length : ℚ)) := by
  constructor
  · rintro rfl
    simp [calculateQuestionRiskScore, JSVal.truthy, JSVal.jsEq, isEmptyArray]
  · intro hv
    unfold calculateQuestionRiskScore
    have hguard : isEmptyArray (.arr vals) = false := by
      simpa [isEmptyArray] using hv
    rw [hguard]
    simp only [JSVal.truthy, JSVal.jsEq, Bool.not_true, Bool.or_false,
      Bool.false_or, Bool.or_self, Bool.false_eq_true, if_false]
    have hc : (q.type = .select ∨ q.type = .checkbox) ∧ q.options.isSome = true :=
      ⟨Or.inr h1, h2⟩
    rw [if_pos hc, if_pos h1]
    have hfun : findOptionScore (q.options.getD []) (q.riskWeight.getD 0)
        = c3OptionContribution q := rfl
    have hlp : vals.length > 0 := List.length_pos.mpr hv
    simp only [hfun, List.length_map, if_pos hlp]

/-- Witness for `c3_checkbox_mean` at concrete inputs. -/
theorem c3_checkbox_mean_witness :
    calculateQuestionRiskScore c3CheckboxQuestion (.arr []) = 0 ∧
    calculateQuestionRiskScore c3CheckboxQuestion (.arr [.str "a", .str "b"])
      = (([JSVal.str "a", JSVal.str "b"].map
          (c3OptionContribution c3CheckboxQuestion)).sum
          / (([JSVal.str "a", JSVal.str "b"] : List JSVal).length : ℚ)) :=
  ⟨(c3_checkbox_mean c3CheckboxQuestion [] rfl rfl).1 rfl,
   (c3_checkbox_mean c3CheckboxQuestion [.str "a", .str "b"] rfl rfl).2 (by simp)⟩

/-!
## Claim C4 — the empty-value guard and falsy-but-present answers
-/

/-- `jsEq v undefined` decides structural equality with `undefined`. -/
theorem jsEq_undef_iff (v : JSVal) : JSVal.jsEq v .undef = true ↔ v = .undef := by
  cases v <;> simp [JSVal.jsEq]

/-- `jsEq v null` decides structural equality with `null`. -/
theorem jsEq_null_iff (v : JSVal) : JSVal.jsEq v .null = true ↔ v = .null := by
  cases v <;> simp [JSVal.jsEq]

/-- `jsEq v ''` decides structural equality with the empty string. -/
theorem jsEq_strEmpty_iff (v : JSVal) : JSVal.jsEq v (.str "") = true ↔ v = .str "" := by
  cases v <;> simp [JSVal.jsEq]

/-- The conditional "visible when the answer of `p` is less than 5". -/
def c4Conditional : ConditionalLogic :=
  { questionId := "p", answer := .num 5, operator := some "lessThan" }

/-- A question whose conditional references the answer of `p` under a
`lessThan 5` condition. -/
def c4Question : Question :=
  { id := "q", type := .number, label := "Q", conditional := some c4Conditional }

/-- Reduction of `isFieldVisible` for a question with a conditional. -/
theorem isFieldVisible_some (q : Question) (cond : ConditionalLogic)
    (values : FormValues) (hc : q.conditional = some cond) :
    isFieldVisible q values =
      if (JSVal.jsEq (jsGet values cond.questionId) .undef
          || JSVal.jsEq (jsGet values cond.questionId) .null
          || JSVal.jsEq (jsGet values cond.questionId) (.str "")) then false
      else visibleDispatch cond.answer (cond.operator.getD "equals")
            (jsGet values cond.questionId) := by
  unfold isFieldVisible
  rw [hc]

/-- C4 (counterexample): the claim says a present-but-falsy referenced
answer — in particular the number `0` — always hides the field; but the
guard compares with strict `===` against `undefined`/`null`/`''` only,
so `0` reaches the `lessThan` branch and the field is visible. -/
theorem c4_counterexample :
    isFieldVisible c4Question [("p", JSVal.num 0)] = true := by
  norm_num [isFieldVisible, visibleDispatch, jsGet, c4Question, c4Conditional,
    JSVal.jsEq, jsToNumber, List.find?, String.reduceBEq, String.reduceEq]
  decide

/-- C4 (amended): the guard of `isFieldVisible` hides the field exactly
when the referenced answer is `undefined`, `null` or `''` (then
regardless of operator); any other present value — including the falsy
number `0` and `false` — passes the guard, and the operator dispatch
decides visibility. -/
theorem c4_falsy_guard (q : Question) (cond : ConditionalLogic) (values : FormValues)
    (hc : q.conditional = some cond) :
    (jsGet values cond.questionId = .undef ∨ jsGet values cond.questionId = .null
        ∨ jsGet values cond.questionId = .str "" →
      isFieldVisible q values = false) ∧
    (jsGet values cond.questionId ≠ .undef → jsGet values cond.questionId ≠ .null →
     jsGet values cond.questionId ≠ .str "" →
      isFieldVisible q values
        = visibleDispatch cond.answer (cond.operator.getD "equals")
            (jsGet values cond.questionId)) := by
  rw [isFieldVisible_some q cond values hc]
  constructor
  · rintro (h | h | h) <;> rw [h] <;> simp [JSVal.jsEq]
  · intro h1 h2 h3
    have e1 : JSVal.jsEq (jsGet values cond.questionId) .undef = false := by
      rw [Bool.eq_false_iff]
      exact fun h => h1 ((jsEq_undef_iff _).mp h)
    have e2 : JSVal.jsEq (jsGet values cond.questionId) .null = false := by
      rw [Bool.eq_false_iff]
      exact fun h => h2 ((jsEq_null_iff _).mp h)
    have e3 : JSVal.jsEq (jsGet values cond.questionId) (.str "") = false := by
      rw [Bool.eq_false_iff]
      exact fun h => h3 ((jsEq_strEmpty_iff _).mp h)
    rw [e1, e2, e3]
    simp

/-- Witness for `c4_falsy_guard` at concrete inputs: an empty-string
answer hides the field; a `0` answer delegates to the operator
dispatch. -/
theorem c4_falsy_guard_witness :
    isFieldVisible c4Question [("p", JSVal.str "")] = false ∧
    isFieldVisible c4Question [("p", JSVal.num 0)]
      = visibleDispatch (JSVal.num 5) "lessThan" (JSVal.num 0) :=
  ⟨(c4_falsy_guard c4Question c4Conditional
      [("p", JSVal.str "")] rfl).1 (Or.inr (Or.inr rfl)),
   (c4_falsy_guard c4Question c4Conditional
      [("p", JSVal.num 0)] rfl).2 (fun h => JSVal.noConfusion h)
      (fun h => JSVal.noConfusion h) (fun h => JSVal.noConfusion h)⟩

/-!
## Claim C5 — `evaluateCondition` vs the dispatch of `isFieldVisible`
-/

/-- An `includes` conditional whose `answer` is the array `['a']`. -/
def c5Conditional : ConditionalLogic :=
  { questionId := "x", answer := .arr [.str "a"], operator := some "includes" }

/-- A question guarded by `c5Conditional`. -/
def c5Question : Question :=
  { id := "y", type := .text, label := "Y", conditional := some c5Conditional }

/-- C5 (counterexample): for operator `includes` with an *array* answer
and an *array* current value, the two evaluators disagree on a non-empty
current value: `isFieldVisible` intersects (`['a']` meets `['a']`:
visible), while `evaluateCondition` tests membership of the answer array
itself, which strict equality never finds (`false`). -/
theorem c5_counterexample :
    isFieldVisible c5Question [("x", JSVal.arr [.str "a"])] = true ∧
    evaluateCondition (some c5Conditional) (.arr [.str "a"]) = false := by
  refine ⟨?_, ?_⟩ <;>
  · norm_num [isFieldVisible, evaluateCondition, visibleDispatch, jsGet,
      c5Question, c5Conditional, JSVal.jsEq, arrIncludes, List.find?,
      String.reduceBEq, String.reduceEq]
    try decide

/-- C5 (amended): `evaluateCondition` computes the same result as the
operator dispatch of `isFieldVisible` for `equals`, `greaterThan` and
`lessThan` always, and for `includes` whenever the answer and the current
value are not both arrays; for `includes` on two arrays the tables
differ (intersection vs membership of the array value), and for an
operator outside the table `isFieldVisible`'s dispatch is fail-open
(`true`) while `evaluateCondition` is fail-closed (`false`). -/
theorem c5_operator_tables (cond : ConditionalLogic) (cv : JSVal) :
    (cond.operator.getD "equals" = "equals"
        ∨ cond.operator.getD "equals" = "greaterThan"
        ∨ cond.operator.getD "equals" = "lessThan" →
      evaluateCondition (some cond) cv
        = visibleDispatch cond.answer (cond.operator.getD "equals") cv) ∧
    (cond.operator.getD "equals" = "includes" →
      JSVal.isArr cond.answer = false ∨ JSVal.isArr cv = false →
      evaluateCondition (some cond) cv
        = visibleDispatch cond.answer (cond.operator.getD "equals") cv) ∧
    (cond.operator.getD "equals" ≠ "equals" →
     cond.operator.getD "equals" ≠ "includes" →
     cond.operator.getD "equals" ≠ "greaterThan" →
     cond.operator.getD "equals" ≠ "lessThan" →
      visibleDispatch cond.answer (cond.operator.getD "equals") cv = true ∧
      evaluateCondition (some cond) cv = false) := by
  refine ⟨?_, ?_, ?_⟩
  · rintro (hop | hop | hop) <;>
      simp only [evaluateCondition, visibleDispatch, hop, String.reduceBEq,
        beq_self_eq_true, if_true, if_false] <;>
      cases cond.answer <;> cases cv <;> rfl
  · intro hop hside
    simp only [evaluateCondition, visibleDispatch, hop, String.reduceBEq,
      beq_self_eq_true, if_true, if_false]
    cases hcv : cv with
    | arr cs =>
        rcases hside with h | h
        · cases hA : cond.answer <;> simp_all [JSVal.isArr]
        · rw [hcv] at h; simp [JSVal.isArr] at h
    | str s => rfl
    | num n => rfl
    | bool b => rfl
    | file n m sz => rfl
    | obj fs => rfl
    | null => rfl
    | undef => rfl
  · intro h1 h2 h3 h4
    have b1 := beq_eq_false_iff_ne.mpr h1
    have b2 := beq_eq_false_iff_ne.mpr h2
    have b3 := beq_eq_false_iff_ne.mpr h3
    have b4 := beq_eq_false_iff_ne.mpr h4
    constructor <;>
      simp only [evaluateCondition, visibleDispatch, b1, b2, b3, b4,
        Bool.false_eq_true, if_false]

/-- Witness for `c5_operator_tables` at concrete inputs. -/
theorem c5_operator_tables_witness :
    (evaluateCondition (some ⟨"x", JSVal.str "v", some "equals"⟩) (JSVal.str "v")
      = visibleDispatch (JSVal.str "v") "equals" (JSVal.str "v")) ∧
    (evaluateCondition (some ⟨"x", JSVal.str "a", some "includes"⟩) (JSVal.str "ab")
      = visibleDispatch (JSVal.str "a") "includes" (JSVal.str "ab")) ∧
    (visibleDispatch (JSVal.str "v") "unknownOp" (JSVal.str "v") = true ∧
     evaluateCondition (some ⟨"x", JSVal.str "v", some "unknownOp"⟩) (JSVal.str "v")
       = false) :=
  ⟨(c5_operator_tables ⟨"x", JSVal.str "v", some "equals"⟩ (JSVal.str "v")).1
      (Or.inl rfl),
   (c5_operator_tables ⟨"x", JSVal.str "a", some "includes"⟩ (JSVal.str "ab")).2.1
      rfl (Or.inl rfl),
   (c5_operator_tables ⟨"x", JSVal.str "v", some "unknownOp"⟩ (JSVal.str "v")).2.2
      (by decide) (by decide) (by decide) (by decide)⟩

/-!
## Claim C6 — `validateForm` over required questions and `{}`
-/

/-- The required message is a non-empty string. -/
theorem required_message_ne_empty (s : String) : s ++ " is required" ≠ "" := by
  intro h
  have hlen := congrArg String.length h
  rw [String.length_append] at hlen
  have h12 : (" is required" : String).length = 12 := rfl
  have h0 : ("" : String).length = 0 := rfl
  rw [h12, h0] at hlen
  omega

/-- A question without a conditional is always visible. -/
theorem isFieldVisible_none (q : Question) (values : FormValues)
    (hc : q.conditional = none) : isFieldVisible q values = true := by
  unfold isFieldVisible
  rw [hc]

/-- A visible required question with an `undefined` value yields the
required-field message. -/
theorem validateField_required_undef (host : Host) (q : Question)
    (hreq : q.required = true) :
    validateField host q .undef true = some (q.label ++ " is required") := by
  unfold validateField
  simp [hreq, isEmptyValue, JSVal.jsEq]

/-- `objSet` on a fresh key appends. -/
theorem objSet_of_fresh (m : List (String × α)) (k : String) (v : α)
    (h : m.all (fun p => p.1 ≠ k) = true) : objSet m k v = m ++ [(k, v)] := by
  unfold objSet
  have hany : m.any (fun p => p.1 == k) = false := by
    rw [List.any_eq_false]
    intro x hx
    have hne := of_decide_eq_true (List.all_eq_true.mp h x hx)
    simp [hne]
  rw [hany]
  simp

/-- Fold invariant for `validateForm` over all-required, unconditional,
distinct-id questions against the empty value map: each question appends
exactly one error. -/
theorem validateForm_foldl_length (host : Host) (qs : List Question)
    (acc : List (String × String))
    (hreq : ∀ q ∈ qs, q.required = true)
    (hcond : ∀ q ∈ qs, q.conditional = none)
    (hnodup : (qs.map (fun q => q.id)).Nodup)
    (hfresh : ∀ q ∈ qs, acc.all (fun p => p.1 ≠ q.id) = true) :
    (qs.foldl (validateFormStep host []) acc).length = acc.length + qs.length := by
  induction qs generalizing acc with
  | nil => simp
  | cons q qs ih =>
      have hq_mem : q ∈ q :: qs := List.mem_cons_self q qs
      have hvis : isFieldVisible q [] = true :=
        isFieldVisible_none q [] (hcond q hq_mem)
      have hmsg : (q.label ++ " is required") ≠ "" := required_message_ne_empty q.label
      have hstep : validateFormStep host [] acc q = acc ++ [(q.id, q.label ++ " is required")] := by
        unfold validateFormStep
        rw [hvis]
        simp only [show jsGet [] q.id = JSVal.undef from rfl,
          validateField_required_undef host q (hreq q hq_mem), hmsg,
          ne_eq, not_false_eq_true, if_true]
        exact objSet_of_fresh acc q.id _ (hfresh q hq_mem)
      rw [List.foldl_cons, hstep]
      rw [List.map_cons] at hnodup
      obtain ⟨hid_not_in, hnodup'⟩ := List.nodup_cons.mp hnodup
      have hfresh' : ∀ q' ∈ qs, (acc ++ [(q.id, q.label ++ " is required")]).all
          (fun p => p.1 ≠ q'.id) = true := by
        intro q' hq'
        rw [List.all_append]
        have hA := hfresh q' (List.mem_cons_of_mem q hq')
        have hB : q.id ≠ q'.id := by
          intro hEq
          exact hid_not_in (hEq ▸ List.mem_map_of_mem (fun q => q.id) hq')
        simp only [hA, Bool.true_and, List.all_cons, List.all_nil, Bool.and_true,
          decide_eq_true_eq]
        exact hB
      have hlen := ih (acc ++ [(q.id, q.label ++ " is required")])
        (fun q' hq' => hreq q' (List.mem_cons_of_mem q hq'))
        (fun q' hq' => hcond q' (List.mem_cons_of_mem q hq'))
        hnodup' hfresh'
      rw [hlen]
      simp only [List.length_append, List.length_cons, List.length_nil]
      omega

/-- A conditional referencing another question. -/
def c6Conditional : ConditionalLogic :=
  { questionId := "other", answer := .str "y", operator := none }

/-- A required question guarded by `c6Conditional`. -/
def c6ConditionalQuestion : Question :=
  { id := "r", type := .text, label := "R", required := true,
    conditional := some c6Conditional }

/-- C6 (counterexample): one required question that carries a conditional:
under the empty value map the referenced answer is `undefined`, the
empty-value guard hides the field, `validateField` returns `null` for the
hidden field, and the error map is empty — 0 entries, not N = 1. -/
theorem c6_counterexample :
    validateForm defaultHost [c6ConditionalQuestion] [] = [] ∧
    ([c6ConditionalQuestion] : List Question).length = 1 :=
  ⟨rfl, rfl⟩

/-- C6 (amended): for all-required questions *without conditionals* and
with pairwise-distinct ids (the schema invariant), `validateForm` against
the empty value map returns exactly one error entry per question. -/
theorem c6_required_errors (host : Host) (qs : List Question)
    (hreq : ∀ q ∈ qs, q.required = true)
    (hcond : ∀ q ∈ qs, q.conditional = none)
    (hnodup : (qs.map (fun q => q.id)).Nodup) :
    (validateForm host qs []).length = qs.length := by
  unfold validateForm
  have h := validateForm_foldl_length host qs [] hreq hcond hnodup
    (fun q _ => rfl)
  simpa using h

/-- A plain required text question. -/
def c6PlainQuestion : Question :=
  { id := "r2", type := .text, label := "R2", required := true }

/-- Witness for `c6_required_errors` at a concrete input. -/
theorem c6_required_errors_witness :
    (validateForm defaultHost [c6PlainQuestion] []).length
      = ([c6PlainQuestion] : List Question).length :=
  c6_required_errors defaultHost [c6PlainQuestion]
    (fun q hq => by rw [List.mem_singleton.mp hq]; rfl)
    (fun q hq => by rw [List.mem_singleton.mp hq]; rfl)
    (by simp)

/-!
## Claim C7 — `saveFormState`
-/

/-- C7 (counterexample): for the present-but-empty draft id `''` the
claim demands `isDraft = (draftId != null) = true`, but the code's
`isDraft: !!draftId` is falsy on `''` and stores `false`.  (This input is
reachable: `importFormState` passes `state.autoSave.draftId`, which is
`''` for a non-draft state.) -/
theorem c7_counterexample :
    ((saveFormState {} "f" [] (some "") "t").toOption.map
      (fun p => p.2.autoSave.isDraft)) = some false ∧
    (some "" : Option String) ≠ none := by
  exact ⟨rfl, by simp⟩

/-- C7 (amended): a successful `saveFormState` returns the written state
with `formId`, `values`, both timestamps set to the current time,
`draftId = draftId ?? ''`, and `isDraft` true iff the draft id is present
*and non-empty* (`!!draftId`); a failing underlying write throws the
wrapped message `'Failed to save form state'`. -/
theorem c7_saveFormState (st : Storage) (f : String) (v : FormValues)
    (d : Option String) (now : String) :
    (∀ (st' : Storage) (state : PersistedFormState),
      saveFormState st f v d now = .ok (st', state) →
      state.formId = f ∧ state.values = v ∧ state.timestamp = now ∧
      state.autoSave.lastSavedAt = now ∧ state.autoSave.draftId = d.getD "" ∧
      (state.autoSave.isDraft = true ↔ d ≠ none ∧ d ≠ some "")) ∧
    (st.quotaExceeded = true →
      saveFormState st f v d now = .error "Failed to save form state") := by
  constructor
  · intro st' state h
    unfold saveFormState setItem at h
    by_cases hq : st.quotaExceeded
    · simp [hq] at h
    · simp only [hq, if_false, Bool.false_eq_true] at h
      obtain ⟨-, hstate⟩ := And.intro (Except.ok.inj h) (Except.ok.inj h)
      have hstate2 := (Prod.mk.injEq _ _ _ _).mp (Except.ok.inj h)
      obtain ⟨-, hstate3⟩ := hstate2
      subst hstate3
      refine ⟨rfl, rfl, rfl, rfl, rfl, ?_⟩
      cases d with
      | none => simp
      | some s =>
          by_cases hs : s = ""
          · subst hs; simp
          · simp [hs]
  · intro hq
    unfold saveFormState setItem
    rw [hq]
    rfl

/-- The state written by the witness call of `c7_saveFormState`. -/
def c7State : PersistedFormState :=
  { formId := "f", values := [],
    autoSave := { lastSavedAt := "t", isDraft := true, draftId := "d" },
    timestamp := "t" }

/-- The store after the witness call of `c7_saveFormState`. -/
def c7Store : Storage :=
  { data := [("risk-form:f", .state c7State)], quotaExceeded := false }

/-- Witness for `c7_saveFormState` at concrete inputs. -/
theorem c7_saveFormState_witness :
    (c7State.formId = "f" ∧ c7State.values = [] ∧ c7State.timestamp = "t" ∧
     c7State.autoSave.lastSavedAt = "t" ∧
     c7State.autoSave.draftId = (some "d").getD "" ∧
     (c7State.autoSave.isDraft = true ↔
        (some "d" : Option String) ≠ none ∧ (some "d" : Option String) ≠ some "")) ∧
    saveFormState { data := [], quotaExceeded := true } "f" [] (some "d") "t"
      = .error "Failed to save form state" :=
  ⟨(c7_saveFormState {} "f" [] (some "d") "t").1 c7Store c7State rfl,
   (c7_saveFormState { data := [], quotaExceeded := true } "f" [] (some "d") "t").2 rfl⟩

/-!
## Claim C8 — the drafts index under `saveDraft` / `deleteDraft`
-/

/-- The drafts-index key and a draft-data key never collide: they differ
at character 15 (`s` vs `:`). -/
theorem listKey_ne_draftKey (f d : String) :
    getDraftsListKey f ≠ getDraftKey f d := by
  intro h
  have e1 : ((getDraftsListKey f).data)[15]? = some 's' := by
    show (("risk-form:drafts:" ++ f).data)[15]? = some 's'
    rw [String.data_append,
      List.getElem?_append_left (by decide : (15 : Nat) < "risk-form:drafts:".data.length)]
    rfl
  have e2 : ((getDraftKey f d).data)[15]? = some ':' := by
    show ((((("risk-form:draft:" ++ f) ++ ":") ++ d).data))[15]? = some ':'
    rw [String.data_append, String.data_append, String.data_append,
      List.append_assoc, List.append_assoc,
      List.getElem?_append_left (by decide : (15 : Nat) < "risk-form:draft:".data.length)]
    rfl
  rw [h, e2] at e1
  exact absurd (Option.some.inj e1) (by decide)

/-- Two stores that agree on the index key list the same drafts. -/
theorem getDraftsList_congr (st st' : Storage) (f : String)
    (h : st'.data.find? (fun p => p.1 == getDraftsListKey f)
       = st.data.find? (fun p => p.1 == getDraftsListKey f)) :
    getDraftsList st' f = getDraftsList st f := by
  unfold getDraftsList getItem
  rw [h]

/-- C8 (counterexample): two `saveDraft` calls with the *same* draft id
`'d1'` on a fresh store leave an index of length 2 — the second call
appends a duplicate entry instead of updating the existing one, so the
index length is not left unchanged as the claim states. -/
theorem c8_counterexample :
    ((saveDraft {} "f" "n1" [] (some "d1") 0 "t1").toOption.bind
      (fun p => (saveDraft p.1 "f" "n2" [] (some "d1") 1 "t2").toOption)).map
        (fun p => (getDraftsList p.1 "f").length) = some 2 ∧
    (2 : Nat) ≠ 1 :=
  ⟨rfl, by decide⟩

/-- C8 (amended): *every* successful `saveDraft` appends exactly one
metadata entry `{id, name, createdAt, updatedAt}` to the form's index —
also when the draft id is already present (a duplicate entry, not an
in-place update); so a fresh id grows the list by exactly 1, and so does
an existing id.  `deleteDraft` (with a working store) rewrites the index
filtered by `d.id !== draftId`, removing exactly the entries whose id
matches and keeping all others. -/
theorem c8_draft_index :
    (∀ (st : Storage) (f n : String) (v : FormValues) (d : Option String)
        (ms : Nat) (iso : String) (st' : Storage) (did : String),
      saveDraft st f n v d ms iso = .ok (st', did) →
      getDraftsList st' f
        = getDraftsList st f
            ++ [{ id := did, name := n, createdAt := iso, updatedAt := iso }]) ∧
    (∀ (st : Storage) (f did : String), st.quotaExceeded = false →
      getDraftsList (deleteDraft st f did) f
        = (getDraftsList st f).filter (fun d => d.id ≠ did)) := by
  constructor
  · intro st f n v d ms iso st' did h
    unfold saveDraft setItem at h
    by_cases hq : st.quotaExceeded
    · simp [hq] at h
    · simp only [hq, if_false, Bool.false_eq_true] at h
      have hpair := Except.ok.inj h
      have hst' := congrArg Prod.fst hpair
      have hdid := congrArg Prod.snd hpair
      simp only at hst' hdid
      subst hst'
      subst hdid
      unfold getDraftsList getItem
      rw [objSet_find?_self, objSet_find?_ne _ _ _ _ (listKey_ne_draftKey f _)]
  · intro st f did hq
    unfold deleteDraft setItem removeItem
    simp only [hq, if_false, Bool.false_eq_true]
    unfold getDraftsList getItem
    rw [objSet_find?_self, filter_find?_ne _ _ _ (listKey_ne_draftKey f did)]

/-- The draft state written by the witness call of `c8_draft_index`. -/
def c8DraftState : PersistedFormState :=
  { formId := "f", values := [],
    autoSave := { lastSavedAt := "t1", isDraft := true, draftId := "d1" },
    timestamp := "t1" }

/-- The index entry appended by the witness call of `c8_draft_index`. -/
def c8Entry : DraftEntry :=
  { id := "d1", name := "n1", createdAt := "t1", updatedAt := "t1" }

/-- The store after the witness call of `c8_draft_index`. -/
def c8Store : Storage :=
  { data := [("risk-form:draft:f:d1", .state c8DraftState),
             ("risk-form:drafts:f", .index [c8Entry])],
    quotaExceeded := false }

/-- Witness for `c8_draft_index` at concrete inputs. -/
theorem c8_draft_index_witness :
    getDraftsList c8Store "f"
      = getDraftsList {} "f"
          ++ [{ id := "d1", name := "n1", createdAt := "t1", updatedAt := "t1" }] ∧
    getDraftsList (deleteDraft c8Store "f" "d1") "f"
      = (getDraftsList c8Store "f").filter (fun d => d.id ≠ "d1") :=
  ⟨c8_draft_index.1 {} "f" "n1" [] (some "d1") 0 "t1" c8Store "d1" rfl,
   c8_draft_index.2 c8Store "f" "d1" rfl⟩

/-!
## Claim C9 — save / load round-trip
-/

/-- A serialization fixed point is unchanged by `serializeState`. -/
theorem serializeState_eq_self (s : PersistedFormState)
    (h : serializeValues s.values = s.values) : serializeState s = s := by
  unfold serializeState
  rw [h]

/-- Form values storing a genuine `File` object, as the program's file
field does. -/
def c9FileValues : FormValues :=
  [("a", JSVal.file "doc.pdf" "application/pdf" 5)]

/-- C9 (counterexample): a form-value map holding a `File` object — which
the file field genuinely stores and `validateField` expects
(`value instanceof File`) — does not round-trip: `JSON.stringify`
collapses the `File` to the empty object `{}`, so the loaded `values` is
`[("a", {})]`, not deep-equal to the saved map. -/
theorem c9_counterexample :
    ((saveFormState {} "f" c9FileValues none "t").toOption.bind
      (fun p => (loadFormState p.1 "f").map (fun s => s.values)))
      = some [("a", JSVal.obj [])] ∧
    ([("a", JSVal.obj [])] : FormValues) ≠ c9FileValues := by
  constructor
  · rfl
  · intro h
    simp [c9FileValues] at h

/-- C9 (amended): after a successful `saveFormState(formId, v)`,
`loadFormState(formId)` returns the *JSON-serialized image* of the
written state — its `values` mapped through
`JSON.parse(JSON.stringify(·))` — so the loaded `values` deep-equals `v`
exactly when `v` is invariant under that round-trip; in particular the
round-trip holds for File-free, `undefined`-free values and fails for the
File-bearing values of `c9_counterexample`. -/
theorem c9_roundtrip (st : Storage) (f : String) (v : FormValues)
    (d : Option String) (now : String) (st' : Storage)
    (state : PersistedFormState)
    (h : saveFormState st f v d now = .ok (st', state)) :
    state.values = v ∧
    loadFormState st' f = some (serializeState state) ∧
    (serializeValues v = v → loadFormState st' f = some state) := by
  unfold saveFormState setItem at h
  by_cases hq : st.quotaExceeded
  · simp [hq] at h
  · simp only [hq, if_false, Bool.false_eq_true] at h
    have hpair := Except.ok.inj h
    have hst' := congrArg Prod.fst hpair
    have hstate := congrArg Prod.snd hpair
    simp only at hst' hstate
    subst hst'
    subst hstate
    refine ⟨rfl, ?_, ?_⟩
    · unfold loadFormState getItem
      rw [objSet_find?_self]
    · intro hinv
      unfold loadFormState getItem
      rw [objSet_find?_self, serializeState_eq_self _ hinv]

/-- The state written by the witness call of `c9_roundtrip`. -/
def c9State : PersistedFormState :=
  { formId := "f", values := [("a", JSVal.str "b")],
    autoSave := { lastSavedAt := "t", isDraft := false, draftId := "" },
    timestamp := "t" }

/-- The store after the witness call of `c9_roundtrip`. -/
def c9Store : Storage :=
  { data := [("risk-form:f", .state c9State)], quotaExceeded := false }

/-- Witness for `c9_roundtrip` at a concrete, JSON-invariant input. -/
theorem c9_roundtrip_witness :
    c9State.values = [("a", JSVal.str "b")] ∧
    loadFormState c9Store "f" = some (serializeState c9State) ∧
    loadFormState c9Store "f" = some c9State :=
  have h := c9_roundtrip {} "f" [("a", JSVal.str "b")] none "t" c9Store c9State rfl
  ⟨h.1, h.2.1, h.2.2 rfl⟩
